import Mathlib

/-!
Verification of `audio_src2url.py`: a script that scans Jupyter notebooks
for base64-embedded audio in `text/html` outputs, saves each payload as a
content-addressed `.wav` file, commits it to an `audio-storage` git branch,
and rewrites the embedded data into a raw retrieval URL.

The development shallowly embeds the script: pure parts (hashing, path
construction, regex scanning, string substitution) become Lean functions;
the subprocess-driven git interaction becomes explicit state passing over a
`GitState` with a trace of executed commands and an environment oracle
deciding which external commands succeed; Python exceptions become an
explicit error type threaded through `Except`.
-/

set_option maxRecDepth 20000

/-! ## Python string helpers -/

/-- Model of Python slicing `s[:n]`. -/
def takeStr (s : String) (n : Nat) : String := ⟨s.data.take n⟩

/-- One step list of `str.replace`: scans left to right; at each position,
if the (nonempty) pattern is a prefix, emits the replacement and skips the
pattern, else keeps the character.  Fuel-based so that it reduces in the
kernel; `fuel = s.length` always suffices because every step consumes at
least one character. -/
def pyReplaceAux (pat rep : List Char) : Nat → List Char → List Char
  | _, [] => []
  | 0, s => s
  | fuel + 1, c :: cs =>
    if pat.isPrefixOf (c :: cs) then
      rep ++ pyReplaceAux pat rep fuel (List.drop (pat.length - 1) cs)
    else c :: pyReplaceAux pat rep fuel cs

/-- Model of Python `str.replace(pat, rep)` on character lists: replaces
every non-overlapping occurrence, leftmost first.  The empty pattern
follows Python: `"ab".replace("", "X") = "XaXbX"`. -/
def pyReplaceL (s pat rep : List Char) : List Char :=
  match pat with
  | [] => rep ++ (s.map (fun c => c :: rep)).flatten
  | _ :: _ => pyReplaceAux pat rep s.length s

/-- Model of Python `str.replace`. -/
def pyReplace (s pat rep : String) : String := ⟨pyReplaceL s.data pat.data rep.data⟩

/-- Whether `pat` occurs as a contiguous substring of `s`. -/
def containsSubL (pat : List Char) : List Char → Bool
  | [] => pat.isEmpty
  | c :: cs => pat.isPrefixOf (c :: cs) || containsSubL pat cs

/-- Whether `pat` occurs as a contiguous substring of `s` (String version). -/
def containsSub (pat s : String) : Bool := containsSubL pat.data s.data

/-! ## SHA-256 (model of `hashlib.sha256(...).hexdigest()`)

Bytes are `Nat`s below 256; words are `Nat`s below 2^32.  Written with
structural recursion only, so concrete digests reduce in the kernel. -/

/-- Truncate to a 32-bit word. -/
def w32 (x : Nat) : Nat := x % 4294967296

/-- Rotate a 32-bit word right by `n`. -/
def rotr32 (n x : Nat) : Nat := (x / 2 ^ n) + (x % 2 ^ n) * 2 ^ (32 - n)

/-- Logical right shift. -/
def shr (n x : Nat) : Nat := x / 2 ^ n

/-- The 64 SHA-256 round constants (fractional parts of the cube roots
of the first 64 primes), written in decimal. -/
def sha256K : List Nat :=
  [1116352408, 1899447441, 3049323471, 3921009573, 961987163, 1508970993,
   2453635748, 2870763221, 3624381080, 310598401, 607225278, 1426881987,
   1925078388, 2162078206, 2614888103, 3248222580, 3835390401, 4022224774,
   264347078, 604807628, 770255983, 1249150122, 1555081692, 1996064986,
   2554220882, 2821834349, 2952996808, 3210313671, 3336571891, 3584528711,
   113926993, 338241895, 666307205, 773529912, 1294757372, 1396182291,
   1695183700, 1986661051, 2177026350, 2456956037, 2730485921, 2820302411,
   3259730800, 3345764771, 3516065817, 3600352804, 4094571909, 275423344,
   430227734, 506948616, 659060556, 883997877, 958139571, 1322822218,
   1537002063, 1747873779, 1955562222, 2024104815, 2227730452, 2361852424,
   2428436474, 2756734187, 3204031479, 3329325298]

/-- The SHA-256 initial hash value (fractional parts of the square roots
of the first 8 primes), written in decimal. -/
def sha256H0 : List Nat :=
  [1779033703, 3144134277, 1013904242, 2773480762,
   1359893119, 2600822924, 528734635, 1541459225]

/-- Big-endian 8-byte encoding of a length. -/
def be64 (n : Nat) : List Nat :=
  [(n / 2 ^ 56) % 256, (n / 2 ^ 48) % 256, (n / 2 ^ 40) % 256, (n / 2 ^ 32) % 256,
   (n / 2 ^ 24) % 256, (n / 2 ^ 16) % 256, (n / 2 ^ 8) % 256, n % 256]

/-- SHA-256 message padding: `0x80`, zeros, then the bit length, to a
multiple of 64 bytes. -/
def sha256Pad (msg : List Nat) : List Nat :=
  let k := (119 - msg.length % 64) % 64
  msg ++ [128] ++ List.replicate k 0 ++ be64 (8 * msg.length)

/-- Group bytes into big-endian 32-bit words. -/
def toWords : List Nat → List Nat
  | a :: b :: c :: d :: rest => (((a * 256 + b) * 256 + c) * 256 + d) :: toWords rest
  | _ => []

/-- Group words into 16-word blocks (the input length is a multiple of 16
after padding; a trailing fragment would be dropped). -/
def toBlocks : List Nat → List (List Nat)
  | w0 :: w1 :: w2 :: w3 :: w4 :: w5 :: w6 :: w7 ::
    w8 :: w9 :: w10 :: w11 :: w12 :: w13 :: w14 :: w15 :: rest =>
    [w0, w1, w2, w3, w4, w5, w6, w7, w8, w9, w10, w11, w12, w13, w14, w15] :: toBlocks rest
  | _ => []

/-- One step of the SHA-256 message-schedule extension. -/
def schedStep (acc : List Nat) (i : Nat) : List Nat :=
  let w15 := acc.getD (i - 15) 0
  let w2 := acc.getD (i - 2) 0
  let s0 := (rotr32 7 w15) ^^^ (rotr32 18 w15) ^^^ (shr 3 w15)
  let s1 := (rotr32 17 w2) ^^^ (rotr32 19 w2) ^^^ (shr 10 w2)
  acc ++ [w32 (acc.getD (i - 16) 0 + s0 + acc.getD (i - 7) 0 + s1)]

/-- Extend a 16-word block to the 64-word schedule. -/
def extendSched (ws : List Nat) : List Nat :=
  (List.range 48).foldl (fun acc k => schedStep acc (k + 16)) ws

/-- One SHA-256 compression round on the eight working variables. -/
def roundStep (w : List Nat) (st : List Nat) (i : Nat) : List Nat :=
  match st with
  | [a, b, c, d, e, f, g, hh] =>
    let s1 := (rotr32 6 e) ^^^ (rotr32 11 e) ^^^ (rotr32 25 e)
    let ch := (e &&& f) ^^^ ((4294967295 - e) &&& g)
    let t1 := w32 (hh + s1 + ch + sha256K.getD i 0 + w.getD i 0)
    let s0 := (rotr32 2 a) ^^^ (rotr32 13 a) ^^^ (rotr32 22 a)
    let mj := (a &&& b) ^^^ (a &&& c) ^^^ (b &&& c)
    let t2 := w32 (s0 + mj)
    [w32 (t1 + t2), a, b, c, w32 (d + t1), e, f, g]
  | _ => st

/-- Compress one 16-word block into the running hash. -/
def compressBlock (h : List Nat) (block : List Nat) : List Nat :=
  let w := extendSched block
  let f := (List.range 64).foldl (roundStep w) h
  List.zipWith (fun x y => w32 (x + y)) h f

/-- SHA-256 of a byte list, as eight 32-bit words. -/
def sha256Words (msg : List Nat) : List Nat :=
  (toBlocks (toWords (sha256Pad msg))).foldl compressBlock sha256H0

/-- Lower-case hexadecimal digit. -/
def hexDigit (n : Nat) : Char := if n < 10 then Char.ofNat (48 + n) else Char.ofNat (87 + n)

/-- Eight hex digits of a 32-bit word, most significant first. -/
def word2hex (w : Nat) : List Char :=
  (List.range 8).map (fun i => hexDigit ((w / 2 ^ (28 - 4 * i)) % 16))

/-- Model of `hashlib.sha256(bytes).hexdigest()`. -/
def sha256hex (msg : List Nat) : String := ⟨((sha256Words msg).map word2hex).flatten⟩

/-! ## Base64 (model of `base64.b64decode`) -/

/-- Value of a standard-alphabet base64 character. -/
def b64val (c : Char) : Option Nat :=
  let n := c.toNat
  if 65 ≤ n ∧ n ≤ 90 then some (n - 65)
  else if 97 ≤ n ∧ n ≤ 122 then some (n - 71)
  else if 48 ≤ n ∧ n ≤ 57 then some (n + 4)
  else if c = '+' then some 62
  else if c = '/' then some 63
  else none

/-- A character kept by the decoder: alphabet or padding. -/
def isB64OrPad (c : Char) : Bool := (b64val c).isSome || c = '='

/-- Decode 4-character groups; `=` padding is accepted in the final group
only (its leftover bits are ignored, as Python ignores them). -/
def decodeQuads : List Char → Option (List Nat)
  | [] => some []
  | a :: b :: c :: d :: rest =>
    match b64val a, b64val b with
    | some va, some vb =>
      if c = '=' then
        if d = '=' && rest.isEmpty then some [va * 4 + vb / 16] else none
      else
        match b64val c with
        | some vc =>
          if d = '=' then
            if rest.isEmpty then some [va * 4 + vb / 16, (vb % 16) * 16 + vc / 4] else none
          else
            match b64val d with
            | some vd =>
              (decodeQuads rest).map
                (fun tail => (va * 4 + vb / 16) :: ((vb % 16) * 16 + vc / 4) :: ((vc % 4) * 64 + vd) :: tail)
            | none => none
        | none => none
    | _, _ => none
  | _ => none

/-- Model of `base64.b64decode(s)`: characters outside the alphabet are
discarded (Python's lenient mode); what remains must consist of 4-character
groups with `=` padding only at the end, else the call raises
`binascii.Error` (modelled as `none`). -/
def decodeBase64 (s : String) : Option (List Nat) :=
  decodeQuads (s.data.filter isB64OrPad)

/-! ## JSON values (the notebook tree) -/

/-- A JSON value as produced by `json.load`: the notebook document tree.
Python dicts are ordered association lists of unique keys. -/
inductive Json where
  | str (s : String)
  | num (n : Int)
  | bool (b : Bool)
  | null
  | arr (xs : List Json)
  | obj (kvs : List (String × Json))

/-- The Python exceptions the script can raise or catch. -/
inductive PyErr where
  | keyError (k : String)
  | typeError
  | attributeError
  | nameError
  | assertionError
  | binasciiError
deriving DecidableEq, Repr

/-- First value bound to a key in an association list. -/
def lookupKV : List (String × Json) → String → Option Json
  | [], _ => none
  | (k', v) :: rest, k => if k' = k then some v else lookupKV rest k

/-- Value of a key of a JSON object, if the value is an object holding the
key (model of `d.get(k)` returning a value). -/
def jGet (j : Json) (k : String) : Option Json :=
  match j with
  | .obj kvs => lookupKV kvs k
  | _ => none

/-- Model of Python subscripting `x[k]` with a string key: a dict yields
the value or raises `KeyError`; any other value raises `TypeError`. -/
def pyIndex (j : Json) (k : String) : Except PyErr Json :=
  match j with
  | .obj kvs =>
    match lookupKV kvs k with
    | some v => .ok v
    | none => .error (.keyError k)
  | _ => .error .typeError

/-- Assignment `d[k] = v` on an association list: replaces the first
binding in place, or appends (Python dicts keep insertion order). -/
def setKV : List (String × Json) → String → Json → List (String × Json)
  | [], k, v => [(k, v)]
  | (k', v') :: rest, k, v => if k' = k then (k, v) :: rest else (k', v') :: setKV rest k v

/-- Assignment `j[k] = v` on an object (identity on non-objects, which the
script never reaches). -/
def setKey (j : Json) (k : String) (v : Json) : Json :=
  match j with
  | .obj kvs => .obj (setKV kvs k v)
  | other => other

/-- Model of Python iteration over a value (`for x in j`): lists yield
their items, strings their characters (as 1-character strings), dicts
their keys; other values raise `TypeError`. -/
def pyIter (j : Json) : Except PyErr (List Json) :=
  match j with
  | .arr xs => .ok xs
  | .str s => .ok (s.data.map (fun c => .str ⟨[c]⟩))
  | .obj kvs => .ok (kvs.map (fun kv => .str kv.1))
  | _ => .error .typeError

/-- Helper for `joinContent`: concatenate a list of JSON strings
(`TypeError` on a non-string item, as `''.join` raises). -/
def joinStrList : List Json → Except PyErr String
  | [] => .ok ""
  | .str s :: rest => (joinStrList rest).map (fun t => s ++ t)
  | _ :: _ => .error .typeError

/-- Model of `''.join(value)`: joins a list of strings; a string joins its
own characters (identity); a dict joins its keys; other values raise
`TypeError`. -/
def joinContent (j : Json) : Except PyErr String :=
  match j with
  | .str s => .ok s
  | .arr xs => joinStrList xs
  | .obj kvs => .ok (String.join (kvs.map (fun kv => kv.1)))
  | _ => .error .typeError

/-- Python `==` between a JSON value and a string literal: true exactly for
the equal string (no coercion, no error). -/
def isStrEq (j : Json) (s : String) : Bool :=
  match j with
  | .str s' => s' == s
  | _ => false

/-- Depth-bounded serialization of a JSON tree, used to observe structural
equality or difference of documents in concrete statements (it is injective
on trees of depth below the bound). -/
def encodeJ : Nat → Json → String
  | 0, _ => "..."
  | _ + 1, .str s => "\"" ++ s ++ "\""
  | _ + 1, .num n => toString n
  | _ + 1, .bool b => if b then "true" else "false"
  | _ + 1, .null => "null"
  | fuel + 1, .arr xs => "[" ++ String.intercalate ", " (xs.map (encodeJ fuel)) ++ "]"
  | fuel + 1, .obj kvs =>
    "\x7b" ++ String.intercalate ", " (kvs.map (fun kv => "\"" ++ kv.1 ++ "\": " ++ encodeJ fuel kv.2)) ++ "\x7d"

/-- Serialization at a depth bound sufficient for every notebook here. -/
def jenc (j : Json) : String := encodeJ 16 j

/-! ## The scanner: `re.findall(r'<source src="data:audio/[^"]+base64,([^"]+)"', s)` -/

/-- The literal head of the pattern. -/
def audioPat : List Char := "<source src=\"data:audio/".data

/-- The literal `base64,` inside the pattern. -/
def b64lit : List Char := "base64,".data

/-- Backtracking of `[^"]+base64,([^"]+)` inside the run `run` of
non-quote characters that follows `data:audio/`: the first `[^"]+` is
greedy, so it ends at the rightmost position `p ≥ 1` of `base64,` in `run`
that leaves a nonempty remainder; the capture is that greedy remainder. -/
def lastB64Capture (run : List Char) : Option (List Char) :=
  match (List.range run.length).reverse.find?
      (fun p => decide (1 ≤ p) && b64lit.isPrefixOf (run.drop p) && decide (p + 7 < run.length)) with
  | some p => some (run.drop (p + 7))
  | none => none

/-- Try to match the whole pattern at the head of `s`; on success, return
the capture and the rest of the input after the closing quote.  All three
inner pieces of the pattern match only non-quote characters and the
pattern ends with a literal `"` — so a match extends exactly to the first
quote after the head literal. -/
def matchAudioAt (s : List Char) : Option (List Char × List Char) :=
  if audioPat.isPrefixOf s then
    let rest := s.drop audioPat.length
    let run := rest.takeWhile (fun c => c != '"')
    match rest.drop run.length with
    | '"' :: tail =>
      match lastB64Capture run with
      | some cap => some (cap, tail)
      | none => none
    | _ => none
  else none

/-- Scan for all non-overlapping matches, leftmost first: after a match
the scan resumes after its closing quote, after a failure one character
later.  Fuel-based (every step consumes at least one character, so
`fuel = s.length` suffices). -/
def findAudioAux : Nat → List Char → List (List Char)
  | 0, _ => []
  | _ + 1, [] => []
  | fuel + 1, c :: cs =>
    match matchAudioAt (c :: cs) with
    | some (cap, rest) => cap :: findAudioAux fuel rest
    | none => findAudioAux fuel cs

/-- Model of `re.findall(r'<source src="data:audio/[^"]+base64,([^"]+)"', s)`:
the list of captured base64 payloads, in textual order. -/
def findAudio (s : String) : List String :=
  (findAudioAux s.data.length s.data).map (fun l => ⟨l⟩)

/-! ## The git interaction model

Every `subprocess.run(["git", ...])` call becomes a `Cmd` applied to an
explicit repository state, appended to a trace, with an environment oracle
`Env` deciding (by position in the trace) whether the external command
succeeds — this models spurious failures of `git` (network, locks, hooks).
Commands whose success is structurally impossible (checking out a missing
branch, creating an existing one, popping an empty stash) fail regardless. -/

/-- One git invocation made by the script. -/
inductive Cmd where
  | stash
  | showCurrent
  | revParse (b : String)
  | checkoutNew (b : String)
  | checkout (b : String)
  | stashPop
  | add (p : String)
  | commit (m : String)
  | push (b : String)
  | getRemoteUrl
deriving DecidableEq, Repr

/-- The repository state the script can observe or change. -/
structure GitState where
  currentBranch : String
  branches : List String
  stash : List String
  dirty : Option String
  remoteUrl : String
deriving DecidableEq, Repr

/-- Success (by trace position) of each external command. -/
abbrev Env := Nat → Bool

/-- The sequence of git commands executed so far. -/
abbrev Trace := List Cmd

/-- Execute one git command: returns (exit-ok, stdout, state, trace). -/
def exec (env : Env) (c : Cmd) (g : GitState) (tr : Trace) : Bool × String × GitState × Trace :=
  let ok := env tr.length
  let tr' := tr ++ [c]
  if ok then
    match c with
    | .stash =>
      match g.dirty with
      | some d => (true, "", { g with dirty := none, stash := d :: g.stash }, tr')
      | none => (true, "", g, tr')
    | .showCurrent => (true, g.currentBranch, g, tr')
    | .revParse b => (g.branches.contains b, "", g, tr')
    | .checkoutNew b =>
      if g.branches.contains b then (false, "", g, tr')
      else (true, "", { g with branches := b :: g.branches, currentBranch := b }, tr')
    | .checkout b =>
      if g.branches.contains b then (true, "", { g with currentBranch := b }, tr')
      else (false, "", g, tr')
    | .stashPop =>
      match g.stash with
      | d :: rest => (true, "", { g with stash := rest, dirty := some d }, tr')
      | [] => (false, "", g, tr')
    | .add _ => (true, "", g, tr')
    | .commit _ => (true, "", g, tr')
    | .push _ => (true, "", g, tr')
    | .getRemoteUrl => (true, g.remoteUrl, g, tr')
  else (false, "", g, tr')

/-- Embeds `change_branch(target_branch)`: stash, read the current branch,
test whether the target exists (`git rev-parse` has no `check=True`, so its
failure is not an exception), then create or check it out.  A
`CalledProcessError` from any checked call is caught and `None` returned. -/
def change_branch (env : Env) (target_branch : String) (g : GitState) (tr : Trace) :
    Option String × GitState × Trace :=
  let (ok, _, g, tr) := exec env .stash g tr
  if ok then
    let (ok, current_branch, g, tr) := exec env .showCurrent g tr
    if ok then
      let (branch_exists, _, g, tr) := exec env (.revParse target_branch) g tr
      if !branch_exists then
        let (ok, _, g, tr) := exec env (.checkoutNew target_branch) g tr
        if ok then (some current_branch, g, tr) else (none, g, tr)
      else
        let (ok, _, g, tr) := exec env (.checkout target_branch) g tr
        if ok then (some current_branch, g, tr) else (none, g, tr)
    else (none, g, tr)
  else (none, g, tr)

/-- Embeds `restore_branch(original_branch)`.  The `try` block is a
checkout followed by the line `subproress.run(["git","stash","pop"],
check=True)` — `subproress` is an unbound name (a typo for `subprocess`),
so once the checkout has succeeded the function raises `NameError`, which
its `except subprocess.CalledProcessError` clause does not catch.  The
stash-pop command is therefore never issued.  If the checkout itself fails,
the `CalledProcessError` is caught and printed and the function returns
normally without reaching the typo. -/
def restore_branch (env : Env) (original_branch : String) (g : GitState) (tr : Trace) :
    Except (PyErr × GitState × Trace) (GitState × Trace) :=
  let (ok, _, g, tr) := exec env (.checkout original_branch) g tr
  if ok then .error (.nameError, g, tr)
  else .ok (g, tr)

/-- The raw URL built on line 86 of the source:
`f"{repo_url.replace('.git', '')}/raw/{branch_name}/{audio_filepath}"`.
Note `str.replace` removes every occurrence of `.git`, not only a
suffix. -/
def mkRawUrl (repo_url branch_name audio_filepath : String) : String :=
  pyReplace repo_url ".git" "" ++ "/raw/" ++ branch_name ++ "/" ++ audio_filepath

/-- Embeds `commit_and_push_audio_file(audio_filepath)`: reads the current
branch, asserts it is `audio-storage` (an `AssertionError` is not a
`CalledProcessError`, so it propagates), then add, commit, push, read the
remote URL, build the raw URL, and check the previously read branch out
again.  Any `CalledProcessError` is caught and `None` returned. -/
def commit_and_push_audio_file (env : Env) (audio_filepath : String) (g : GitState) (tr : Trace) :
    Except (PyErr × GitState × Trace) (Option String × GitState × Trace) :=
  let branch_name := "audio-storage"
  let (ok, current_branch, g, tr) := exec env .showCurrent g tr
  if ok then
    if current_branch = branch_name then
      let (ok, _, g, tr) := exec env (.add audio_filepath) g tr
      if ok then
        let (ok, _, g, tr) := exec env (.commit ("Add audio file " ++ audio_filepath)) g tr
        if ok then
          let (ok, _, g, tr) := exec env (.push branch_name) g tr
          if ok then
            let (ok, repo_url, g, tr) := exec env .getRemoteUrl g tr
            if ok then
              let raw_url := mkRawUrl repo_url branch_name audio_filepath
              let (ok, _, g, tr) := exec env (.checkout current_branch) g tr
              if ok then .ok (some raw_url, g, tr) else .ok (none, g, tr)
            else .ok (none, g, tr)
          else .ok (none, g, tr)
        else .ok (none, g, tr)
      else .ok (none, g, tr)
    else .error (.assertionError, g, tr)
  else .ok (none, g, tr)

/-- Embeds `save_audio_file(base64_data, notebook_name, cell_index,
hash_length=16)`: decodes the payload (`none` models the `binascii.Error`
that `base64.b64decode` raises on an undecodable payload), hashes the
bytes, and returns `os.path.join("audio_files", filename)`.  The
filesystem write has no observable effect on anything specified here and
is not modelled. -/
def save_audio_file (base64_data notebook_name : String) (cell_index : Nat)
    (hash_length : Nat := 16) : Option String :=
  (decodeBase64 base64_data).map (fun audio_data =>
    let audio_hash := if hash_length > 0 then takeStr (sha256hex audio_data) hash_length else ""
    "audio_files/" ++ (notebook_name ++ "_cell" ++ toString cell_index ++ "_" ++ audio_hash ++ ".wav"))

/-! ## The pipeline: `audio_data2url` and its inner `replace_audio_data` -/

/-- Model of `os.path.basename` (POSIX): the part after the last `/`. -/
def basenameOf (p : String) : String := ⟨(p.data.reverse.takeWhile (fun c => c != '/')).reverse⟩

/-- Model of `os.path.splitext(p)[0]` for ordinary names such as
`nb.ipynb`: drops the part from the last dot on; a name whose only dot
is the leading one keeps it (Python does not treat a leading dot of the
basename as starting an extension). -/
def splitextRoot (p : String) : String :=
  let cs := p.data
  let extLen := (cs.reverse.takeWhile (fun c => c != '.')).length
  if extLen = cs.length then p
  else if cs.length - extLen - 1 = 0 then p
  else ⟨cs.take (cs.length - extLen - 1)⟩

/-- The mutable context of one run of `audio_data2url`: repository state,
command trace, and the `matches_found` flag. -/
structure RunSt where
  g : GitState
  tr : Trace
  found : Bool
deriving DecidableEq, Repr

/-- The state while processing the matches of one `text/html` entry: the
enclosing `value_str` plus the run context. -/
structure MatchSt where
  value : String
  run : RunSt
deriving DecidableEq, Repr

/-- The substitution of one matched payload: source line 142,
`value_str.replace(f'data:audio/wav;base64,{match}', raw_url)` — the
pattern hardcodes the `wav` subtype and the replace is an exact substring
replace of every occurrence. -/
def rewriteOccurrence (value_str m raw_url : String) : String :=
  pyReplace value_str ("data:audio/wav;base64," ++ m) raw_url

/-- One iteration of the `for match in matches` loop (source lines
131-145): change to the storage branch (a failure there is caught inside
`change_branch`, which then returns `None` and the iteration does
nothing); save the audio file; commit and push (an `AssertionError`
propagates); substitute the payload if a URL came back; restore the
original branch (where the `subproress` typo raises `NameError` whenever
the checkout succeeded).  Uncaught exceptions carry the state reached. -/
def processMatch (env : Env) (stem : String) (cell_index : Nat) (st : MatchSt) (m : String) :
    Except (PyErr × MatchSt) MatchSt :=
  match change_branch env "audio-storage" st.run.g st.run.tr with
  | (none, g1, tr1) => .ok { value := st.value, run := { st.run with g := g1, tr := tr1 } }
  | (some current_branch, g1, tr1) =>
    match save_audio_file m stem cell_index with
    | none => .error (.binasciiError, { value := st.value, run := { st.run with g := g1, tr := tr1 } })
    | some audio_filepath =>
      match commit_and_push_audio_file env audio_filepath g1 tr1 with
      | .error (e, g2, tr2) =>
        .error (e, { value := st.value, run := { st.run with g := g2, tr := tr2 } })
      | .ok (raw_url?, g2, tr2) =>
        let value' :=
          match raw_url? with
          | some raw_url => rewriteOccurrence st.value m raw_url
          | none => st.value
        match restore_branch env current_branch g2 tr2 with
        | .error (e, g3, tr3) =>
          .error (e, { value := value', run := { st.run with g := g3, tr := tr3 } })
        | .ok (g3, tr3) => .ok { value := value', run := { st.run with g := g3, tr := tr3 } }

/-- The retrieval URL (if any) that `processMatch` obtains for one payload:
replays the same computation and projects out `commit_and_push`'s
result.  `none` covers every failure: branch change failed, payload
undecodable, assertion raised, or a git command failed. -/
def persistedUrl (env : Env) (stem : String) (cell_index : Nat) (st : MatchSt) (m : String) :
    Option String :=
  match change_branch env "audio-storage" st.run.g st.run.tr with
  | (none, _, _) => none
  | (some _, g1, tr1) =>
    match save_audio_file m stem cell_index with
    | none => none
    | some audio_filepath =>
      match commit_and_push_audio_file env audio_filepath g1 tr1 with
      | .error _ => none
      | .ok (raw_url?, _, _) => raw_url?

/-- The whole `for match in matches` loop. -/
def processMatchList (env : Env) (stem : String) (cell_index : Nat) :
    MatchSt → List String → Except (PyErr × MatchSt) MatchSt
  | st, [] => .ok st
  | st, m :: ms =>
    match processMatch env stem cell_index st m with
    | .error e => .error e
    | .ok st' => processMatchList env stem cell_index st' ms

/-- Processing of one `text/html` data entry (source lines 125-146): join
the content into one string, scan it, set `matches_found` if there are
matches, run the match loop, and store the result back as a one-element
list — the store-back happens for every `text/html` entry, matches or
not. -/
def processValue (env : Env) (stem : String) (cell_index : Nat) (s : RunSt) (value : Json) :
    Except (PyErr × RunSt) (Json × RunSt) :=
  match joinContent value with
  | .error e => .error (e, s)
  | .ok value_str =>
    let ms := findAudio value_str
    let s1 := { s with found := s.found || !ms.isEmpty }
    match processMatchList env stem cell_index { value := value_str, run := s1 } ms with
    | .error (e, st) => .error (e, st.run)
    | .ok st => .ok (.arr [.str st.value], st.run)

/-- The `for key, value in output.get('data', {}).items()` loop: only
`text/html` entries are touched; the assignment `output['data'][key] =
[value_str]` is modelled by rebuilding the entry in place. -/
def processData (env : Env) (stem : String) (cell_index : Nat) :
    RunSt → List (String × Json) → Except (PyErr × RunSt) (List (String × Json) × RunSt)
  | s, [] => .ok ([], s)
  | s, (k, v) :: rest =>
    if k = "text/html" then
      match processValue env stem cell_index s v with
      | .error e => .error e
      | .ok (v', s') =>
        match processData env stem cell_index s' rest with
        | .error e => .error e
        | .ok (rest', s'') => .ok ((k, v') :: rest', s'')
    else
      match processData env stem cell_index s rest with
      | .error e => .error e
      | .ok (rest', s') => .ok ((k, v) :: rest', s')

/-- Processing of one output (source lines 122-146): `output['output_type']`
is read unconditionally (`KeyError`/`TypeError` propagate); only
`execute_result` outputs are inspected; `output.get('data', {})` iterates
nothing when `data` is absent, and `.items()` on a non-dict raises
`AttributeError`. -/
def processOutput (env : Env) (stem : String) (cell_index : Nat) (s : RunSt) (output : Json) :
    Except (PyErr × RunSt) (Json × RunSt) :=
  match pyIndex output "output_type" with
  | .error e => .error (e, s)
  | .ok ot =>
    if isStrEq ot "execute_result" then
      match jGet output "data" with
      | none => .ok (output, s)
      | some dataJson =>
        match dataJson with
        | .obj entries =>
          match processData env stem cell_index s entries with
          | .error e => .error e
          | .ok (entries', s') => .ok (setKey output "data" (.obj entries'), s')
        | _ => .error (.attributeError, s)
      else .ok (output, s)

/-- The `for output in cell.get('outputs', [])` loop. -/
def processOutputList (env : Env) (stem : String) (cell_index : Nat) :
    RunSt → List Json → Except (PyErr × RunSt) (List Json × RunSt)
  | s, [] => .ok ([], s)
  | s, o :: os =>
    match processOutput env stem cell_index s o with
    | .error e => .error e
    | .ok (o', s') =>
      match processOutputList env stem cell_index s' os with
      | .error e => .error e
      | .ok (os', s'') => .ok (o' :: os', s'')

/-- Embeds `replace_audio_data(cell, cell_index)` (source lines 118-146):
`cell['cell_type']` is read unconditionally; only `code` cells have their
outputs walked; a missing `outputs` key iterates the default `[]`.  The
outputs are mutated in place, so the cell's `outputs` entry is rebuilt
only when it is a list (iterating a non-list either yields immutable
items that raise before any mutation, or yields nothing). -/
def replace_audio_data (env : Env) (stem : String) (cell : Json) (cell_index : Nat) (s : RunSt) :
    Except (PyErr × RunSt) (Json × RunSt) :=
  match pyIndex cell "cell_type" with
  | .error e => .error (e, s)
  | .ok ct =>
    if isStrEq ct "code" then
      match jGet cell "outputs" with
      | none => .ok (cell, s)
      | some outsJson =>
        match pyIter outsJson with
        | .error e => .error (e, s)
        | .ok outs =>
          match processOutputList env stem cell_index s outs with
          | .error e => .error e
          | .ok (outs', s') =>
            let outsJson' := match outsJson with | .arr _ => Json.arr outs' | other => other
            .ok (setKey cell "outputs" outsJson', s')
    else .ok (cell, s)

/-- The `for cell_index, cell in enumerate(notebook['cells'])` loop. -/
def processCellList (env : Env) (stem : String) :
    List Json → Nat → RunSt → Except (PyErr × RunSt) (List Json × RunSt)
  | [], _, s => .ok ([], s)
  | c :: cs, i, s =>
    match replace_audio_data env stem c i s with
    | .error e => .error e
    | .ok (c', s') =>
      match processCellList env stem cs (i + 1) s' with
      | .error e => .error e
      | .ok (cs', s'') => .ok (c' :: cs', s'')

/-- The body of `audio_data2url` after a successful `json.load` (source
lines 110-155 without the file I/O): walk the cells and return the
(possibly mutated) notebook together with the final run state.  The cells
are mutated in place, so the notebook's `cells` entry is rebuilt only when
it is a list. -/
def audio_data2url_loaded (env : Env) (input_filename : String) (notebook : Json) (g : GitState) :
    Except (PyErr × RunSt) (Json × RunSt) :=
  let stem := splitextRoot (basenameOf input_filename)
  let s : RunSt := { g := g, tr := [], found := false }
  match pyIndex notebook "cells" with
  | .error e => .error (e, s)
  | .ok cellsJson =>
    match pyIter cellsJson with
    | .error e => .error (e, s)
    | .ok cells =>
      match processCellList env stem cells 0 s with
      | .error e => .error e
      | .ok (cells', s') =>
        let cellsJson' := match cellsJson with | .arr _ => Json.arr cells' | other => other
        .ok (setKey notebook "cells" cellsJson', s')

/-- Outcome of one `audio_data2url(input_filename)` call. -/
inductive RunResult where
  | parseError
  | completed (notebook : Json) (matches_found : Bool)
  | uncaught (e : PyErr)

/-- Embeds `audio_data2url(input_filename)`'s control flow: only
`json.JSONDecodeError` is caught (reported, and the function returns);
the input is `none` when `json.load` failed.  Every other exception from
the processing body propagates to the caller. -/
def audio_data2url (env : Env) (input_filename : String) (input : Option Json) (g : GitState) :
    RunResult :=
  match input with
  | none => .parseError
  | some notebook =>
    match audio_data2url_loaded env input_filename notebook g with
    | .ok (notebook', s) => .completed notebook' s.found
    | .error (e, _) => .uncaught e

/-- Whether a run ended in an uncaught exception. -/
def isUncaught : RunResult → Bool
  | .uncaught _ => true
  | _ => false

/-- The paths of the `git add` commands of a trace, in order: the storage
paths the run actually persisted to. -/
def addPaths : Trace → List String
  | [] => []
  | .add p :: rest => p :: addPaths rest
  | _ :: rest => addPaths rest

/-- The `value_str` reached by one match iteration, whether it returned
or raised. -/
def valueOfResult : Except (PyErr × MatchSt) MatchSt → String
  | .ok st => st.value
  | .error (_, st) => st.value

/-! ## Projections used in statements -/

/-- The trace reached by a run, whether it returned or raised. -/
def runTraceOf : Except (PyErr × RunSt) (Json × RunSt) → Trace
  | .ok (_, s) => s.tr
  | .error (_, s) => s.tr

/-- The `matches_found` flag reached by a run, whether it returned or
raised. -/
def runFoundOf : Except (PyErr × RunSt) (Json × RunSt) → Bool
  | .ok (_, s) => s.found
  | .error (_, s) => s.found

/-- Whether a subscript raised. -/
def isErrB : Except PyErr Json → Bool
  | .error _ => true
  | .ok _ => false

/-! ## Definitions written from the spec's words (for refinement claims) -/

/-- Modelled from the spec: "`remote_fetch_base` is the repository's
configured remote URL with any `.git` suffix removed" — removal of a
suffix only. -/
def stripGitSuffix (r : String) : String :=
  if (".git".data).isSuffixOf r.data then ⟨r.data.take (r.data.length - 4)⟩ else r

/-- Modelled from the spec: "Replaces the literal substring
`data:audio/wav;base64,<payload>` with `retrievalURL` wherever it occurs
in the content (exact substring match, not through the regex capture
group — so the subtype in the substituted occurrence is assumed `wav`
regardless of the originally-declared subtype)".  The declared subtype is
deliberately ignored. -/
def specSubstitute (declaredSubtype content payload url : String) : String :=
  let _ := declaredSubtype
  pyReplace content ("data:audio/wav;base64," ++ payload) url

/-- The normalization that processing applies to a `text/html` entry even
when nothing matches: the content becomes a one-element list holding the
joined string (entries whose join would raise are untouched — processing
would have raised there). -/
def normalizeValue (v : Json) : Json :=
  match joinContent v with
  | .ok s => .arr [.str s]
  | .error _ => v

/-- Apply `normalizeValue` to the `text/html` entries of a data dict. -/
def normalizeEntries : List (String × Json) → List (String × Json)
  | [] => []
  | (k, v) :: rest => (if k = "text/html" then (k, normalizeValue v) else (k, v)) :: normalizeEntries rest

/-- The normalization on one output: only `execute_result` outputs with a
dict `data` are touched. -/
def normalizeOutput (o : Json) : Json :=
  match pyIndex o "output_type" with
  | .error _ => o
  | .ok ot =>
    if isStrEq ot "execute_result" then
      match jGet o "data" with
      | some (.obj entries) => setKey o "data" (.obj (normalizeEntries entries))
      | _ => o
    else o

/-- The normalization on one cell: only `code` cells with a list of
outputs are touched. -/
def normalizeCell (c : Json) : Json :=
  match pyIndex c "cell_type" with
  | .error _ => c
  | .ok ct =>
    if isStrEq ct "code" then
      match jGet c "outputs" with
      | none => c
      | some outsJson =>
        match pyIter outsJson with
        | .error _ => c
        | .ok outs =>
          let outsJson' := match outsJson with | .arr _ => Json.arr (outs.map normalizeOutput) | other => other
          setKey c "outputs" outsJson'
    else c

/-- What a run leaves of a document that holds no embedded audio
reference: the tree with each `text/html` entry of an `execute_result`
output of a `code` cell rewritten to a one-element list holding its
joined content, and nothing else changed. -/
def normalizeDoc (doc : Json) : Json :=
  match pyIndex doc "cells" with
  | .error _ => doc
  | .ok cellsJson =>
    match pyIter cellsJson with
    | .error _ => doc
    | .ok cells =>
      let cellsJson' := match cellsJson with | .arr _ => Json.arr (cells.map normalizeCell) | other => other
      setKey doc "cells" cellsJson'

/-! ## Claim-side predicates (following the claims' words) -/

/-- Following C10's words: the document contains, in some cell's `outputs`
list, an output without an `output_type` key. -/
def hasOutputMissingType (doc : Json) : Bool :=
  match jGet doc "cells" with
  | some (.arr cells) => cells.any (fun c =>
      match jGet c "outputs" with
      | some (.arr outs) => outs.any (fun o =>
          match o with
          | .obj kvs => (lookupKV kvs "output_type").isNone
          | _ => true)
      | _ => false)
  | _ => false

/-- A cell on which `replace_audio_data` must raise when it is reached:
its `cell_type` subscript raises, or it is a `code` cell with an iterable
`outputs` holding an output whose `output_type` subscript raises. -/
def BadCell (c : Json) : Prop :=
  isErrB (pyIndex c "cell_type") = true ∨
  (pyIndex c "cell_type" = .ok (.str "code") ∧
    ∃ oj outs o, jGet c "outputs" = some oj ∧ pyIter oj = .ok outs ∧ o ∈ outs ∧
      isErrB (pyIndex o "output_type") = true)

/-- A document on which the processing body must raise: the top-level
`cells` subscript raises, or some reachable cell is bad. -/
def BadDoc (doc : Json) : Prop :=
  isErrB (pyIndex doc "cells") = true ∨
  (∃ cj cells c, pyIndex doc "cells" = .ok cj ∧ pyIter cj = .ok cells ∧ c ∈ cells ∧ BadCell c)

/-! ## Concrete repository states, environments and documents -/

/-- A repository on `main` with uncommitted changes and a configured
remote. -/
def gRepo : GitState :=
  { currentBranch := "main", branches := ["main"], stash := [], dirty := some "work",
    remoteUrl := "https://github.com/u/r.git" }

/-- A repository already on the storage branch, clean. -/
def gStorage : GitState :=
  { currentBranch := "audio-storage", branches := ["audio-storage", "main"], stash := [],
    dirty := none, remoteUrl := "https://github.com/u/r.git" }

/-- A repository on the storage branch whose remote URL contains `.git`
in the middle as well as as a suffix. -/
def gDotGit : GitState :=
  { currentBranch := "audio-storage", branches := ["audio-storage"], stash := [],
    dirty := none, remoteUrl := "https://e.git.com/r.git" }

/-- The environment in which every external command succeeds. -/
def envT : Env := fun _ => true

/-- Every command succeeds except the 11th (the checkout of
`restore_branch` after the first reference) — the only way the script's
loop continues past a reference. -/
def env9 : Env := fun n => n != 10

/-- Every command succeeds except the 6th (the `git add` of the first
reference): a persistence failure on the first reference. -/
def env3 : Env := fun n => n != 5

/-- One embedded wav reference with payload `QQ==`. -/
def htmlQQ : String := "<source src=\"data:audio/wav;base64,QQ==\">"

/-- A code cell with one `execute_result` output embedding `htmlQQ`. -/
def cellQQ : Json :=
  Json.obj [("cell_type", Json.str "code"),
    ("outputs", Json.arr [Json.obj [("output_type", Json.str "execute_result"),
      ("data", Json.obj [("text/html", Json.str htmlQQ)])]])]

/-- Two cells, each embedding the same payload `QQ==`. -/
def docTwoRefs : Json := Json.obj [("cells", Json.arr [cellQQ, cellQQ])]

/-- A document with no embedded audio reference, whose `text/html`
content is a plain string. -/
def docPlain : Json :=
  Json.obj [("cells", Json.arr [Json.obj [("cell_type", Json.str "code"),
    ("outputs", Json.arr [Json.obj [("output_type", Json.str "execute_result"),
      ("data", Json.obj [("text/html", Json.str "hello")])]])]])]

/-- The document `docPlain` with its `text/html` entry normalized to a
one-element list: what the run leaves of it. -/
def docPlainNorm : Json :=
  Json.obj [("cells", Json.arr [Json.obj [("cell_type", Json.str "code"),
    ("outputs", Json.arr [Json.obj [("output_type", Json.str "execute_result"),
      ("data", Json.obj [("text/html", Json.arr [Json.str "hello"])])]])]])]

/-- A markdown cell carrying an `outputs` list with an output that has no
`output_type` key. -/
def docMarkdownBadOutput : Json :=
  Json.obj [("cells", Json.arr [Json.obj [("cell_type", Json.str "markdown"),
    ("outputs", Json.arr [Json.obj []])]])]

/-- The storage paths the two-reference run persists to, read off the
`git add` commands of its trace. -/
def twoRefsPaths : List String :=
  addPaths (runTraceOf (audio_data2url_loaded env9 "nb.ipynb" docTwoRefs gRepo))

/-- The state after `change_branch envT "audio-storage" gRepo []`. -/
def gChanged : GitState :=
  { currentBranch := "audio-storage", branches := ["audio-storage", "main"], stash := ["work"],
    dirty := none, remoteUrl := "https://github.com/u/r.git" }

/-- The trace of `change_branch envT "audio-storage" gRepo []`. -/
def trChanged : Trace :=
  [Cmd.stash, Cmd.showCurrent, Cmd.revParse "audio-storage", Cmd.checkoutNew "audio-storage"]

/-- The state `gChanged` after checking `main` out again (stash untouched). -/
def gRestored : GitState :=
  { currentBranch := "main", branches := ["audio-storage", "main"], stash := ["work"],
    dirty := none, remoteUrl := "https://github.com/u/r.git" }

/-- The trace of the aborted two-reference run of `env3`: one stash/add
sequence, then the restore checkout on which the `NameError` is raised. -/
def trAddFail : Trace :=
  [Cmd.stash, Cmd.showCurrent, Cmd.revParse "audio-storage", Cmd.checkoutNew "audio-storage",
   Cmd.showCurrent, Cmd.add "audio_files/nb_cell0_559aead08264d579.wav", Cmd.checkout "main"]

/-- The trace of one fully successful `commit_and_push_audio_file` call
for `audio_files/a.wav`. -/
def trFullPush : Trace :=
  [Cmd.showCurrent, Cmd.add "audio_files/a.wav", Cmd.commit "Add audio file audio_files/a.wav",
   Cmd.push "audio-storage", Cmd.getRemoteUrl, Cmd.checkout "audio-storage"]

/-- The URL the successful push on `gStorage` returns. -/
def urlA : String := "https://github.com/u/r/raw/audio-storage/audio_files/a.wav"

/-- The document `docPlain` as the run leaves it. -/
def docPlainOut : Json :=
  match audio_data2url_loaded envT "nb.ipynb" docPlain gRepo with
  | .ok (d, _) => d
  | .error _ => Json.null

/-! # Theorems -/

/-! ## Substring lemmas for the rewriter -/

theorem containsSubL_nil (s : List Char) : containsSubL [] s = true := by
  cases s <;> simp [containsSubL, List.isPrefixOf]

theorem pyReplaceAux_not_contains (pat rep : List Char) :
    ∀ (fuel : Nat) (s : List Char), containsSubL pat s = false →
      pyReplaceAux pat rep fuel s = s := by
  intro fuel
  induction fuel with
  | zero => intro s _; cases s <;> rfl
  | succ n ih =>
    intro s h
    cases s with
    | nil => rfl
    | cons c cs =>
      simp only [containsSubL, Bool.or_eq_false_iff] at h
      simp only [pyReplaceAux, h.1, Bool.false_eq_true, if_false]
      rw [ih cs h.2]

theorem pyReplace_not_contains (pat s rep : String) (h : containsSub pat s = false) :
    pyReplace s pat rep = s := by
  unfold containsSub at h
  unfold pyReplace pyReplaceL
  cases hp : pat.data with
  | nil => rw [hp, containsSubL_nil] at h; cases h
  | cons p ps =>
    rw [hp] at h
    rw [pyReplaceAux_not_contains (p :: ps) rep.data s.data.length s.data h]

/-! ## C1 -/

/-- C1 (code bug): entering the branch context from `main` with dirty
changes (every git command succeeding) stashes them and switches to
`audio-storage`; `restore_branch` then checks `main` out again but raises
`NameError` — the source line reads `subproress.run(["git","stash","pop"],
check=True)`, and `subproress` is an unbound name — before any stash-pop
command is issued, so the stashed entry is still on the stash and the
error propagates past the context.  The claim's guarantee "any changes
stashed on entry are restored by popping the stash" is violated even on
the all-success path. -/
theorem c1_restore_never_pops :
    change_branch envT "audio-storage" gRepo [] = (some "main", gChanged, trChanged) ∧
    restore_branch envT "main" gChanged trChanged =
      .error (.nameError, gRestored, trChanged ++ [Cmd.checkout "main"]) ∧
    gRestored.currentBranch = "main" ∧ gRestored.stash = ["work"] ∧ gRestored.dirty = none :=
  ⟨by rfl, by rfl, by rfl, by rfl, by rfl⟩

/-! ## C3 -/

/-- C3 (code bug): on a two-reference document whose first persistence
fails at `git add` (environment `env3`), the failure is not contained:
`restore_branch` raises `NameError`, `audio_data2url` ends in an uncaught
exception, and the trace shows the second reference was never processed
(a single stash/branch-change/add sequence, then the restore checkout on
which the typo raises). -/
theorem c3_failure_aborts_document :
    audio_data2url env3 "nb.ipynb" (some docTwoRefs) gRepo = .uncaught .nameError ∧
    runTraceOf (audio_data2url_loaded env3 "nb.ipynb" docTwoRefs gRepo) = trAddFail :=
  ⟨by rfl, by rfl⟩

/-! ## C5 -/

/-- C5 (counterexample): with the remote URL `https://e.git.com/r.git`,
the code returns `https://e.com/r/raw/audio-storage/audio_files/a.wav` —
`str.replace` removed the interior `.git` as well — which differs from
the claim's remote-with-`.git`-suffix-removed shape
`https://e.git.com/r/raw/audio-storage/audio_files/a.wav`. -/
theorem c5_counterexample :
    commit_and_push_audio_file envT "audio_files/a.wav" gDotGit [] =
      .ok (some "https://e.com/r/raw/audio-storage/audio_files/a.wav", gDotGit, trFullPush) ∧
    "https://e.com/r/raw/audio-storage/audio_files/a.wav" ≠
      stripGitSuffix gDotGit.remoteUrl ++ "/raw/" ++ "audio-storage" ++ "/" ++ "audio_files/a.wav" :=
  ⟨by rfl, by decide⟩

/-! ## C6 -/

/-- C6: the rewrite of a matched payload is exactly the spec-worded
substitution — the literal substring `data:audio/wav;base64,<payload>` is
replaced by the URL wherever it occurs, with the subtype hardcoded as
`wav` no matter which subtype the matched source tag declared — and the
match is an exact substring match: a content not containing that literal
substring is left unchanged. -/
theorem c6_rewrite_literal_wav (declaredSubtype content payload url : String) :
    rewriteOccurrence content payload url = specSubstitute declaredSubtype content payload url ∧
    (containsSub ("data:audio/wav;base64," ++ payload) content = false →
      rewriteOccurrence content payload url = content) :=
  ⟨rfl, fun h => pyReplace_not_contains _ _ _ h⟩

/-- Witness for C6: a reference declared with subtype `mpeg` is not
rewritten, because the hardcoded `wav` pattern does not occur. -/
theorem c6_rewrite_literal_wav_witness :
    containsSub ("data:audio/wav;base64," ++ "AAAA")
        "<source src=\"data:audio/mpeg;base64,AAAA\">" = false ∧
    rewriteOccurrence "<source src=\"data:audio/mpeg;base64,AAAA\">" "AAAA" "u" =
      "<source src=\"data:audio/mpeg;base64,AAAA\">" :=
  ⟨by decide, (c6_rewrite_literal_wav "mpeg" _ "AAAA" "u").2 (by decide)⟩

/-! ## C7 -/

/-- C7: if the active branch at persistence time is not `audio-storage`,
`commit_and_push_audio_file` fails — the assertion raises, or the branch
query itself fails and `None` is returned — and the trace gained exactly
one command, the branch query: no `git add`, `git commit` or `git push`
was executed. -/
theorem c7_branch_assert (env : Env) (audio_filepath : String) (g : GitState) (tr : Trace)
    (h : g.currentBranch ≠ "audio-storage") :
    commit_and_push_audio_file env audio_filepath g tr =
        .error (.assertionError, g, tr ++ [Cmd.showCurrent]) ∨
    commit_and_push_audio_file env audio_filepath g tr =
        .ok (none, g, tr ++ [Cmd.showCurrent]) := by
  unfold commit_and_push_audio_file
  cases he : env tr.length with
  | true => left; simp [exec, he, h]
  | false => right; simp [exec, he]

/-- Witness for C7: from branch `main`, the persistence attempt executes
only the branch query. -/
theorem c7_branch_assert_witness :
    commit_and_push_audio_file envT "audio_files/a.wav" gRepo [] =
        .error (.assertionError, gRepo, [Cmd.showCurrent]) ∨
    commit_and_push_audio_file envT "audio_files/a.wav" gRepo [] =
        .ok (none, gRepo, [Cmd.showCurrent]) :=
  c7_branch_assert envT "audio_files/a.wav" gRepo [] (by decide)

/-! ## C8 -/

/-- C8: for every decodable payload, the addresser returns
`audio_files/{stem}_cell{index}_{hash}.wav` where the hash is the
hexadecimal SHA-256 digest of the decoded bytes truncated to
`hash_length` characters, and with `hash_length = 0` the hash segment is
empty while the path keeps the same shape. -/
theorem c8_addresser_path (base64_data notebook_name : String) (cell_index : Nat)
    (hash_length : Nat) (audio_data : List Nat)
    (h : decodeBase64 base64_data = some audio_data) :
    save_audio_file base64_data notebook_name cell_index hash_length =
      some ("audio_files/" ++ (notebook_name ++ "_cell" ++ toString cell_index ++ "_" ++
        takeStr (sha256hex audio_data) hash_length ++ ".wav")) ∧
    save_audio_file base64_data notebook_name cell_index 0 =
      some ("audio_files/" ++ (notebook_name ++ "_cell" ++ toString cell_index ++ "_" ++
        "" ++ ".wav")) := by
  unfold save_audio_file
  rw [h]
  constructor
  · cases hash_length with
    | zero => rfl
    | succ n => simp [takeStr]
  · rfl

/-- Witness for C8: payload `QQ==` decodes to the byte `65`. -/
theorem c8_addresser_path_witness :
    decodeBase64 "QQ==" = some [65] ∧
    save_audio_file "QQ==" "nb" 0 16 =
      some ("audio_files/" ++ ("nb" ++ "_cell" ++ toString 0 ++ "_" ++
        takeStr (sha256hex [65]) 16 ++ ".wav")) :=
  ⟨by decide, (c8_addresser_path "QQ==" "nb" 0 16 [65] (by decide)).1⟩

/-! ## C9 -/

/-- C9 (counterexample): the two cells of `docTwoRefs` embed the same
payload `QQ==` (hence identical decoded bytes), yet the run persists them
to two different storage paths — the path depends on the cell index, so
references in different cells never share a path. -/
theorem c9_counterexample :
    findAudio htmlQQ = ["QQ=="] ∧
    twoRefsPaths = ["audio_files/nb_cell0_559aead08264d579.wav",
                    "audio_files/nb_cell1_559aead08264d579.wav"] ∧
    "audio_files/nb_cell0_559aead08264d579.wav" ≠
      "audio_files/nb_cell1_559aead08264d579.wav" :=
  ⟨by decide, by rfl, by decide⟩

/-- C9 (amended): two payloads with identical decoded bytes, embedded in
the same cell, are addressed to the same storage path, and (against the
same configured remote URL) to the same retrieval URL. -/
theorem c9_same_bytes_same_path (m1 m2 notebook_name : String) (cell_index : Nat)
    (hash_length : Nat) (repo_url : String)
    (h : decodeBase64 m1 = decodeBase64 m2) :
    save_audio_file m1 notebook_name cell_index hash_length =
      save_audio_file m2 notebook_name cell_index hash_length ∧
    (save_audio_file m1 notebook_name cell_index hash_length).map
        (fun fp => mkRawUrl repo_url "audio-storage" fp) =
      (save_audio_file m2 notebook_name cell_index hash_length).map
        (fun fp => mkRawUrl repo_url "audio-storage" fp) := by
  unfold save_audio_file
  rw [h]
  exact ⟨rfl, rfl⟩

/-- Witness for C9: `QQ==` and `QR==` are different base64 spellings of
the same byte, and are addressed identically. -/
theorem c9_same_bytes_same_path_witness :
    decodeBase64 "QQ==" = decodeBase64 "QR==" ∧
    save_audio_file "QQ==" "nb" 0 16 = save_audio_file "QR==" "nb" 0 16 :=
  ⟨by decide, (c9_same_bytes_same_path "QQ==" "QR==" "nb" 0 16 "r" (by decide)).1⟩

/-! ## C4 (counterexample) and C10 (counterexample) -/

/-- C4 (counterexample): `docPlain` holds no embedded audio reference
(its only `text/html` content scans to no matches, the run reports no
matches and issues no git command), yet the output tree differs from the
input: the `text/html` entry was rewritten from the plain string
`"hello"` to the one-element list `["hello"]`. -/
theorem c4_counterexample :
    findAudio "hello" = [] ∧
    runFoundOf (audio_data2url_loaded envT "nb.ipynb" docPlain gRepo) = false ∧
    runTraceOf (audio_data2url_loaded envT "nb.ipynb" docPlain gRepo) = [] ∧
    jenc docPlainOut ≠ jenc docPlain :=
  ⟨by decide, by rfl, by rfl, by decide⟩

/-- C10 (counterexample): `docMarkdownBadOutput` contains (in a markdown
cell) an output without an `output_type` key, yet processing completes
without raising — outputs are only inspected inside `code` cells. -/
theorem c10_counterexample :
    hasOutputMissingType docMarkdownBadOutput = true ∧
    isUncaught (audio_data2url envT "nb.ipynb" (some docMarkdownBadOutput) gRepo) = false :=
  ⟨by decide, by rfl⟩

/-! ## C2 -/

/-- C2: one match iteration rewrites the content exactly when persistence
obtained a retrieval URL: the reached `value_str` — whether the iteration
returned or raised — equals the substitution of the payload by the URL if
one was returned, and is the unchanged original content in every failure
case (branch change failed, payload undecodable, assertion raised, a git
command failed). -/
theorem c2_rewrite_iff_url (env : Env) (stem : String) (cell_index : Nat)
    (st : MatchSt) (m : String) :
    valueOfResult (processMatch env stem cell_index st m) =
      match persistedUrl env stem cell_index st m with
      | some raw_url => rewriteOccurrence st.value m raw_url
      | none => st.value := by
  unfold processMatch persistedUrl
  rcases hcb : change_branch env "audio-storage" st.run.g st.run.tr with ⟨cur?, g1, tr1⟩
  cases cur? with
  | none => rfl
  | some current_branch =>
    dsimp only
    cases hs : save_audio_file m stem cell_index with
    | none => rfl
    | some audio_filepath =>
      dsimp only
      cases hcp : commit_and_push_audio_file env audio_filepath g1 tr1 with
      | error ep =>
        rcases ep with ⟨e, g2, tr2⟩
        rfl
      | ok r =>
        rcases r with ⟨raw_url?, g2, tr2⟩
        dsimp only
        cases raw_url? with
        | none =>
          dsimp only
          cases hrb : restore_branch env current_branch g2 tr2 with
          | error ep => rcases ep with ⟨e, g3, tr3⟩; rfl
          | ok r2 => rcases r2 with ⟨g3, tr3⟩; rfl
        | some raw_url =>
          dsimp only
          cases hrb : restore_branch env current_branch g2 tr2 with
          | error ep => rcases ep with ⟨e, g3, tr3⟩; rfl
          | ok r2 => rcases r2 with ⟨g3, tr3⟩; rfl

/-! ## C5 (amended) -/

/-- C5 (amended): every successful persistence returns the URL built from
the configured remote fetch URL with every occurrence of the substring
`.git` removed (Python `str.replace`), followed by `/raw/`, the storage
branch `audio-storage`, `/`, and the storage path. -/
theorem exec_fail (env : Env) (c : Cmd) (g : GitState) (tr : Trace)
    (he : env tr.length = false) : exec env c g tr = (false, "", g, tr ++ [c]) := by
  unfold exec; simp [he]

theorem exec_showCurrent_t (env : Env) (g : GitState) (tr : Trace)
    (he : env tr.length = true) :
    exec env .showCurrent g tr = (true, g.currentBranch, g, tr ++ [.showCurrent]) := by
  unfold exec; simp [he]

theorem exec_add_t (env : Env) (p : String) (g : GitState) (tr : Trace)
    (he : env tr.length = true) :
    exec env (.add p) g tr = (true, "", g, tr ++ [.add p]) := by
  unfold exec; simp [he]

theorem exec_commit_t (env : Env) (msg : String) (g : GitState) (tr : Trace)
    (he : env tr.length = true) :
    exec env (.commit msg) g tr = (true, "", g, tr ++ [.commit msg]) := by
  unfold exec; simp [he]

theorem exec_push_t (env : Env) (b : String) (g : GitState) (tr : Trace)
    (he : env tr.length = true) :
    exec env (.push b) g tr = (true, "", g, tr ++ [.push b]) := by
  unfold exec; simp [he]

theorem exec_getRemoteUrl_t (env : Env) (g : GitState) (tr : Trace)
    (he : env tr.length = true) :
    exec env .getRemoteUrl g tr = (true, g.remoteUrl, g, tr ++ [.getRemoteUrl]) := by
  unfold exec; simp [he]

theorem exec_checkout_t (env : Env) (b : String) (g : GitState) (tr : Trace)
    (he : env tr.length = true) (hb : g.branches.contains b = true) :
    exec env (.checkout b) g tr =
      (true, "", { g with currentBranch := b }, tr ++ [.checkout b]) := by
  unfold exec; simp [he, hb]; simpa using hb

theorem exec_checkout_f (env : Env) (b : String) (g : GitState) (tr : Trace)
    (he : env tr.length = true) (hb : g.branches.contains b = false) :
    exec env (.checkout b) g tr = (false, "", g, tr ++ [.checkout b]) := by
  unfold exec; simp [he, hb]; simpa using hb

theorem c5_url_from_replace (env : Env) (audio_filepath : String) (g : GitState) (tr : Trace)
    (url : String) (g' : GitState) (tr' : Trace)
    (h : commit_and_push_audio_file env audio_filepath g tr = .ok (some url, g', tr')) :
    url = pyReplace g.remoteUrl ".git" "" ++ "/raw/" ++ "audio-storage" ++ "/" ++
      audio_filepath := by
  unfold commit_and_push_audio_file at h
  cases henv1 : env tr.length with
  | false => rw [exec_fail env _ g tr henv1] at h; simp at h
  | true =>
    rw [exec_showCurrent_t env g tr henv1] at h
    dsimp only at h
    by_cases hbr : g.currentBranch = "audio-storage"
    · rw [if_pos hbr] at h
      cases henv2 : env (tr ++ [Cmd.showCurrent]).length with
      | false => rw [exec_fail env _ _ _ henv2] at h; simp at h
      | true =>
        rw [exec_add_t env audio_filepath g _ henv2] at h
        dsimp only at h
        cases henv3 : env (tr ++ [Cmd.showCurrent] ++ [Cmd.add audio_filepath]).length with
        | false => rw [exec_fail env _ _ _ henv3] at h; simp at h
        | true =>
          rw [exec_commit_t env _ g _ henv3] at h
          dsimp only at h
          cases henv4 : env (tr ++ [Cmd.showCurrent] ++ [Cmd.add audio_filepath] ++
              [Cmd.commit ("Add audio file " ++ audio_filepath)]).length with
          | false => rw [exec_fail env _ _ _ henv4] at h; simp at h
          | true =>
            rw [exec_push_t env _ g _ henv4] at h
            dsimp only at h
            cases henv5 : env (tr ++ [Cmd.showCurrent] ++ [Cmd.add audio_filepath] ++
                [Cmd.commit ("Add audio file " ++ audio_filepath)] ++
                [Cmd.push "audio-storage"]).length with
            | false => rw [exec_fail env _ _ _ henv5] at h; simp at h
            | true =>
              rw [exec_getRemoteUrl_t env g _ henv5] at h
              dsimp only at h
              cases henv6 : env (tr ++ [Cmd.showCurrent] ++ [Cmd.add audio_filepath] ++
                  [Cmd.commit ("Add audio file " ++ audio_filepath)] ++
                  [Cmd.push "audio-storage"] ++ [Cmd.getRemoteUrl]).length with
              | false => rw [exec_fail env _ _ _ henv6] at h; simp at h
              | true =>
                cases hcb : g.branches.contains g.currentBranch with
                | false =>
                  rw [exec_checkout_f env _ g _ henv6 hcb] at h
                  simp at h
                | true =>
                  rw [exec_checkout_t env _ g _ henv6 hcb] at h
                  dsimp only at h
                  simp only [if_true, Except.ok.injEq, Prod.mk.injEq, Option.some.injEq] at h
                  rw [← h.1]
                  rfl
    · rw [if_neg hbr] at h
      simp at h

/-- Witness for C5 (amended): the successful push on `gStorage` returns
exactly the replace-built URL. -/
theorem c5_url_from_replace_witness :
    commit_and_push_audio_file envT "audio_files/a.wav" gStorage [] =
      .ok (some urlA, gStorage, trFullPush) ∧
    urlA = pyReplace gStorage.remoteUrl ".git" "" ++ "/raw/" ++ "audio-storage" ++ "/" ++
      "audio_files/a.wav" :=
  ⟨by rfl,
   c5_url_from_replace envT "audio_files/a.wav" gStorage [] urlA gStorage trFullPush (by rfl)⟩

/-! ## C10 -/

theorem processOutputList_raises (env : Env) (stem : String) (i : Nat) :
    ∀ (outs : List Json) (s : RunSt) (o : Json), o ∈ outs →
      isErrB (pyIndex o "output_type") = true →
      ∃ e s', processOutputList env stem i s outs = .error (e, s') := by
  intro outs
  induction outs with
  | nil => intro s o ho _; exact absurd ho (List.not_mem_nil o)
  | cons hd tl ih =>
    intro s o ho hbad
    cases hph : processOutput env stem i s hd with
    | error ep =>
      exact ⟨ep.1, ep.2, by unfold processOutputList; rw [hph]⟩
    | ok r =>
      rcases r with ⟨o1, s1⟩
      rcases List.mem_cons.mp ho with rfl | htl
      · exfalso
        unfold processOutput at hph
        cases hp : pyIndex o "output_type" with
        | error e => rw [hp] at hph; exact absurd hph (by simp)
        | ok v => rw [hp] at hbad; simp [isErrB] at hbad
      · obtain ⟨e, s'', he⟩ := ih s1 o htl hbad
        refine ⟨e, s'', ?_⟩
        unfold processOutputList
        rw [hph]
        dsimp only
        rw [he]

theorem replace_audio_data_raises (env : Env) (stem : String) (i : Nat) (s : RunSt) (c : Json)
    (h : BadCell c) : ∃ e s', replace_audio_data env stem c i s = .error (e, s') := by
  unfold replace_audio_data
  rcases h with hct | ⟨hcode, oj, outs, o, hoj, hiter, ho, hbad⟩
  · cases hp : pyIndex c "cell_type" with
    | error e => exact ⟨e, s, by rfl⟩
    | ok v => rw [hp] at hct; simp [isErrB] at hct
  · rw [hcode]
    dsimp only
    rw [if_pos (show isStrEq (Json.str "code") "code" = true from by decide)]
    rw [hoj]
    dsimp only
    rw [hiter]
    dsimp only
    obtain ⟨e, s', he⟩ := processOutputList_raises env stem i outs s o ho hbad
    refine ⟨e, s', ?_⟩
    rw [he]

theorem processCellList_raises (env : Env) (stem : String) :
    ∀ (cells : List Json) (i : Nat) (s : RunSt) (c : Json), c ∈ cells → BadCell c →
      ∃ e s', processCellList env stem cells i s = .error (e, s') := by
  intro cells
  induction cells with
  | nil => intro i s c hc _; exact absurd hc (List.not_mem_nil c)
  | cons hd tl ih =>
    intro i s c hc hbad
    cases hpc : replace_audio_data env stem hd i s with
    | error ep => exact ⟨ep.1, ep.2, by unfold processCellList; rw [hpc]⟩
    | ok r =>
      rcases r with ⟨c1, s1⟩
      rcases List.mem_cons.mp hc with rfl | htl
      · obtain ⟨e, s', he⟩ := replace_audio_data_raises env stem i s c hbad
        rw [he] at hpc
        exact absurd hpc (by simp)
      · obtain ⟨e, s', he⟩ := ih (i + 1) s1 c htl hbad
        refine ⟨e, s', ?_⟩
        unfold processCellList
        rw [hpc]
        dsimp only
        rw [he]

/-- C10 (amended): only a JSON decoding failure is handled as a reported
parse error; a well-formed-JSON input that lacks a top-level `cells` key
(or is not an object), or contains a cell whose `cell_type` subscript
raises, or contains — inside a `code` cell's iterable `outputs` — an
output whose `output_type` subscript raises, makes processing end in an
uncaught exception instead of a report. -/
theorem c10_unhandled_shape_errors (env : Env) (input_filename : String) (doc : Json)
    (g : GitState) :
    audio_data2url env input_filename none g = .parseError ∧
    (BadDoc doc → ∃ e, audio_data2url env input_filename (some doc) g = .uncaught e) := by
  refine ⟨rfl, fun hbad => ?_⟩
  unfold audio_data2url audio_data2url_loaded
  dsimp only
  rcases hbad with hcells | ⟨cj, cells, c, hcj, hiter, hc, hbadc⟩
  · cases hp : pyIndex doc "cells" with
    | error e => exact ⟨e, by rfl⟩
    | ok v => rw [hp] at hcells; simp [isErrB] at hcells
  · rw [hcj]
    dsimp only
    rw [hiter]
    dsimp only
    obtain ⟨e, s', he⟩ :=
      processCellList_raises env (splitextRoot (basenameOf input_filename)) cells 0
        { g := g, tr := [], found := false } c hc hbadc
    exact ⟨e, by rw [he]⟩

/-- Witness for C10: the empty JSON object lacks `cells`, and processing
it raises. -/
theorem c10_unhandled_shape_errors_witness :
    audio_data2url envT "nb.ipynb" none gRepo = .parseError ∧
    (∃ e, audio_data2url envT "nb.ipynb" (some (Json.obj [])) gRepo = .uncaught e) :=
  ⟨(c10_unhandled_shape_errors envT "nb.ipynb" (Json.obj []) gRepo).1,
   (c10_unhandled_shape_errors envT "nb.ipynb" (Json.obj []) gRepo).2 (Or.inl (by decide))⟩

/-! ## C4 (amended): a run that finds no matches only normalizes -/

theorem processMatch_found_ok (env : Env) (stem : String) (i : Nat) (st : MatchSt) (m : String)
    (st' : MatchSt) (h : processMatch env stem i st m = .ok st') :
    st'.run.found = st.run.found := by
  unfold processMatch at h
  rcases hcb : change_branch env "audio-storage" st.run.g st.run.tr with ⟨cur?, g1, tr1⟩
  rw [hcb] at h
  cases cur? with
  | none =>
    dsimp only at h
    simp only [Except.ok.injEq] at h
    rw [← h]
  | some cur =>
    dsimp only at h
    cases hs : save_audio_file m stem i with
    | none => rw [hs] at h; dsimp only at h; simp at h
    | some fp =>
      rw [hs] at h
      dsimp only at h
      cases hcp : commit_and_push_audio_file env fp g1 tr1 with
      | error ep =>
        rcases ep with ⟨e, g2, tr2⟩
        rw [hcp] at h
        dsimp only at h
        simp at h
      | ok r =>
        rcases r with ⟨url?, g2, tr2⟩
        rw [hcp] at h
        dsimp only at h
        cases hrb : restore_branch env cur g2 tr2 with
        | error ep =>
          rcases ep with ⟨e3, g3, tr3⟩
          rw [hrb] at h
          dsimp only at h
          simp at h
        | ok r2 =>
          rcases r2 with ⟨g3, tr3⟩
          rw [hrb] at h
          dsimp only at h
          simp only [Except.ok.injEq] at h
          rw [← h]

theorem processMatchList_found_ok (env : Env) (stem : String) (i : Nat) :
    ∀ (ms : List String) (st st' : MatchSt),
      processMatchList env stem i st ms = .ok st' → st'.run.found = st.run.found := by
  intro ms
  induction ms with
  | nil =>
    intro st st' h
    unfold processMatchList at h
    simp only [Except.ok.injEq] at h
    rw [← h]
  | cons m tl ih =>
    intro st st' h
    unfold processMatchList at h
    cases hpm : processMatch env stem i st m with
    | error e => rw [hpm] at h; simp at h
    | ok st1 =>
      rw [hpm] at h
      dsimp only at h
      rw [ih st1 st' h, processMatch_found_ok env stem i st m st1 hpm]

theorem processValue_pure (env : Env) (stem : String) (i : Nat) (s : RunSt) (v v' : Json)
    (s' : RunSt) (h : processValue env stem i s v = .ok (v', s')) (hf : s'.found = false) :
    v' = normalizeValue v ∧ s' = s := by
  rcases s with ⟨sg, st_tr, sf⟩
  unfold processValue at h
  unfold normalizeValue
  cases hj : joinContent v with
  | error e => rw [hj] at h; simp at h
  | ok vs =>
    rw [hj] at h
    dsimp only at h
    cases hpml : processMatchList env stem i
        { value := vs, run := { g := sg, tr := st_tr, found := sf || !(findAudio vs).isEmpty } }
        (findAudio vs) with
    | error ep =>
      rcases ep with ⟨e, st1⟩
      rw [hpml] at h
      simp at h
    | ok st1 =>
      rw [hpml] at h
      dsimp only at h
      simp only [Except.ok.injEq, Prod.mk.injEq] at h
      obtain ⟨hv, hs⟩ := h
      have hfound := processMatchList_found_ok env stem i (findAudio vs) _ st1 hpml
      rw [hs, hf] at hfound
      have hor := hfound.symm
      rw [Bool.or_eq_false_iff] at hor
      obtain ⟨hsf, hme⟩ := hor
      have hms : findAudio vs = [] := by simpa using hme
      rw [hms] at hpml
      unfold processMatchList at hpml
      simp only [Except.ok.injEq] at hpml
      subst hsf
      constructor
      · rw [← hv, ← hpml]
      · rw [← hs, ← hpml]
        rfl

theorem processData_pure (env : Env) (stem : String) (i : Nat) :
    ∀ (entries : List (String × Json)) (s : RunSt) (entries' : List (String × Json)) (s' : RunSt),
      processData env stem i s entries = .ok (entries', s') → s'.found = false →
      entries' = normalizeEntries entries ∧ s' = s := by
  intro entries
  induction entries with
  | nil =>
    intro s entries' s' h hf
    unfold processData at h
    simp only [Except.ok.injEq, Prod.mk.injEq] at h
    exact ⟨h.1.symm, h.2.symm⟩
  | cons kv rest ih =>
    rcases kv with ⟨k, v⟩
    intro s entries' s' h hf
    unfold processData at h
    by_cases hk : k = "text/html"
    · rw [if_pos hk] at h
      cases hpv : processValue env stem i s v with
      | error ep => rw [hpv] at h; simp at h
      | ok r =>
        rcases r with ⟨v1, s1⟩
        rw [hpv] at h
        dsimp only at h
        cases hpd : processData env stem i s1 rest with
        | error ep => rw [hpd] at h; simp at h
        | ok r2 =>
          rcases r2 with ⟨rest1, s2⟩
          rw [hpd] at h
          dsimp only at h
          simp only [Except.ok.injEq, Prod.mk.injEq] at h
          obtain ⟨hent, hs2⟩ := h
          have hf2 : s2.found = false := by rw [hs2]; exact hf
          obtain ⟨hrest, hs1⟩ := ih s1 rest1 s2 hpd hf2
          have hf1 : s1.found = false := by rw [← hs1]; exact hf2
          obtain ⟨hv1, hs0⟩ := processValue_pure env stem i s v v1 s1 hpv hf1
          constructor
          · rw [← hent]
            unfold normalizeEntries
            rw [if_pos hk, hv1, hrest]
          · rw [← hs2, hs1, hs0]
    · rw [if_neg hk] at h
      cases hpd : processData env stem i s rest with
      | error ep => rw [hpd] at h; simp at h
      | ok r2 =>
        rcases r2 with ⟨rest1, s1⟩
        rw [hpd] at h
        dsimp only at h
        simp only [Except.ok.injEq, Prod.mk.injEq] at h
        obtain ⟨hent, hs1⟩ := h
        have hf1 : s1.found = false := by rw [hs1]; exact hf
        obtain ⟨hrest, hs0⟩ := ih s rest1 s1 hpd hf1
        constructor
        · rw [← hent]
          unfold normalizeEntries
          rw [if_neg hk, hrest]
        · rw [← hs1, hs0]

theorem processOutput_pure (env : Env) (stem : String) (i : Nat) (s : RunSt) (o o' : Json)
    (s' : RunSt) (h : processOutput env stem i s o = .ok (o', s')) (hf : s'.found = false) :
    o' = normalizeOutput o ∧ s' = s := by
  unfold processOutput at h
  unfold normalizeOutput
  cases hp : pyIndex o "output_type" with
  | error e => rw [hp] at h; simp at h
  | ok ot =>
    rw [hp] at h
    dsimp only at h ⊢
    by_cases hot : isStrEq ot "execute_result" = true
    · rw [if_pos hot] at h ⊢
      cases hd : jGet o "data" with
      | none =>
        rw [hd] at h
        simp only [Except.ok.injEq, Prod.mk.injEq] at h
        exact ⟨h.1.symm, h.2.symm⟩
      | some dj =>
        rw [hd] at h
        cases dj <;> try (solve | simp at h)
        rename_i entries
        dsimp only at h ⊢
        cases hpd : processData env stem i s entries with
        | error ep => rw [hpd] at h; simp at h
        | ok r =>
          rcases r with ⟨entries1, s1⟩
          rw [hpd] at h
          dsimp only at h
          simp only [Except.ok.injEq, Prod.mk.injEq] at h
          obtain ⟨ho', hs1⟩ := h
          have hf1 : s1.found = false := by rw [hs1]; exact hf
          obtain ⟨hentries, hs0⟩ := processData_pure env stem i entries s entries1 s1 hpd hf1
          constructor
          · rw [← ho', hentries]
          · rw [← hs1, hs0]
    · rw [if_neg hot] at h ⊢
      simp only [Except.ok.injEq, Prod.mk.injEq] at h
      exact ⟨h.1.symm, h.2.symm⟩

theorem processOutputList_pure (env : Env) (stem : String) (i : Nat) :
    ∀ (outs : List Json) (s : RunSt) (outs' : List Json) (s' : RunSt),
      processOutputList env stem i s outs = .ok (outs', s') → s'.found = false →
      outs' = outs.map normalizeOutput ∧ s' = s := by
  intro outs
  induction outs with
  | nil =>
    intro s outs' s' h hf
    unfold processOutputList at h
    simp only [Except.ok.injEq, Prod.mk.injEq] at h
    exact ⟨h.1.symm, h.2.symm⟩
  | cons hd tl ih =>
    intro s outs' s' h hf
    unfold processOutputList at h
    cases hpo : processOutput env stem i s hd with
    | error ep => rw [hpo] at h; simp at h
    | ok r =>
      rcases r with ⟨o1, s1⟩
      rw [hpo] at h
      dsimp only at h
      cases hpl : processOutputList env stem i s1 tl with
      | error ep => rw [hpl] at h; simp at h
      | ok r2 =>
        rcases r2 with ⟨os1, s2⟩
        rw [hpl] at h
        dsimp only at h
        simp only [Except.ok.injEq, Prod.mk.injEq] at h
        obtain ⟨houts, hs2⟩ := h
        have hf2 : s2.found = false := by rw [hs2]; exact hf
        obtain ⟨htl, hs1⟩ := ih s1 os1 s2 hpl hf2
        have hf1 : s1.found = false := by rw [← hs1]; exact hf2
        obtain ⟨ho1, hs0⟩ := processOutput_pure env stem i s hd o1 s1 hpo hf1
        constructor
        · rw [← houts, ho1, htl, List.map_cons]
        · rw [← hs2, hs1, hs0]

theorem replace_audio_data_pure (env : Env) (stem : String) (c : Json) (i : Nat) (s : RunSt)
    (c' : Json) (s' : RunSt) (h : replace_audio_data env stem c i s = .ok (c', s'))
    (hf : s'.found = false) : c' = normalizeCell c ∧ s' = s := by
  unfold replace_audio_data at h
  unfold normalizeCell
  cases hp : pyIndex c "cell_type" with
  | error e => rw [hp] at h; simp at h
  | ok ct =>
    rw [hp] at h
    dsimp only at h ⊢
    by_cases hct : isStrEq ct "code" = true
    · rw [if_pos hct] at h ⊢
      cases ho : jGet c "outputs" with
      | none =>
        rw [ho] at h
        simp only [Except.ok.injEq, Prod.mk.injEq] at h
        exact ⟨h.1.symm, h.2.symm⟩
      | some oj =>
        rw [ho] at h
        dsimp only at h ⊢
        cases hit : pyIter oj with
        | error e => rw [hit] at h; simp at h
        | ok outs =>
          rw [hit] at h
          dsimp only at h ⊢
          cases hpo : processOutputList env stem i s outs with
          | error ep => rw [hpo] at h; simp at h
          | ok r =>
            rcases r with ⟨outs1, s1⟩
            rw [hpo] at h
            dsimp only at h
            simp only [Except.ok.injEq, Prod.mk.injEq] at h
            obtain ⟨hc', hs1⟩ := h
            have hf1 : s1.found = false := by rw [hs1]; exact hf
            obtain ⟨houts, hs0⟩ := processOutputList_pure env stem i outs s outs1 s1 hpo hf1
            constructor
            · rw [← hc', houts]
            · rw [← hs1, hs0]
    · rw [if_neg hct] at h ⊢
      simp only [Except.ok.injEq, Prod.mk.injEq] at h
      exact ⟨h.1.symm, h.2.symm⟩

theorem processCellList_pure (env : Env) (stem : String) :
    ∀ (cells : List Json) (i : Nat) (s : RunSt) (cells' : List Json) (s' : RunSt),
      processCellList env stem cells i s = .ok (cells', s') → s'.found = false →
      cells' = cells.map normalizeCell ∧ s' = s := by
  intro cells
  induction cells with
  | nil =>
    intro i s cells' s' h hf
    unfold processCellList at h
    simp only [Except.ok.injEq, Prod.mk.injEq] at h
    exact ⟨h.1.symm, h.2.symm⟩
  | cons hd tl ih =>
    intro i s cells' s' h hf
    unfold processCellList at h
    cases hpc : replace_audio_data env stem hd i s with
    | error ep => rw [hpc] at h; simp at h
    | ok r =>
      rcases r with ⟨c1, s1⟩
      rw [hpc] at h
      dsimp only at h
      cases hpl : processCellList env stem tl (i + 1) s1 with
      | error ep => rw [hpl] at h; simp at h
      | ok r2 =>
        rcases r2 with ⟨cs1, s2⟩
        rw [hpl] at h
        dsimp only at h
        simp only [Except.ok.injEq, Prod.mk.injEq] at h
        obtain ⟨hcells, hs2⟩ := h
        have hf2 : s2.found = false := by rw [hs2]; exact hf
        obtain ⟨htl, hs1⟩ := ih (i + 1) s1 cs1 s2 hpl hf2
        have hf1 : s1.found = false := by rw [← hs1]; exact hf2
        obtain ⟨hc1, hs0⟩ := replace_audio_data_pure env stem hd i s c1 s1 hpc hf1
        constructor
        · rw [← hcells, hc1, htl, List.map_cons]
        · rw [← hs2, hs1, hs0]

/-- C4 (amended): a run that completes having found no matches leaves the
document equal to its normalization — every `text/html` entry of an
`execute_result` output of a `code` cell becomes a one-element list
holding its joined content, and nothing else changes (in particular no
git command was issued: the run state is the initial one). -/
theorem c4_no_refs_is_normalization (env : Env) (input_filename : String) (doc doc' : Json)
    (g : GitState) (s' : RunSt)
    (h : audio_data2url_loaded env input_filename doc g = .ok (doc', s'))
    (hf : s'.found = false) :
    doc' = normalizeDoc doc ∧ s' = { g := g, tr := [], found := false } := by
  unfold audio_data2url_loaded at h
  unfold normalizeDoc
  dsimp only at h
  cases hp : pyIndex doc "cells" with
  | error e => rw [hp] at h; simp at h
  | ok cj =>
    rw [hp] at h
    dsimp only at h ⊢
    cases hit : pyIter cj with
    | error e => rw [hit] at h; simp at h
    | ok cells =>
      rw [hit] at h
      dsimp only at h ⊢
      cases hpc : processCellList env (splitextRoot (basenameOf input_filename)) cells 0
          { g := g, tr := [], found := false } with
      | error ep => rw [hpc] at h; simp at h
      | ok r =>
        rcases r with ⟨cells1, s1⟩
        rw [hpc] at h
        dsimp only at h
        simp only [Except.ok.injEq, Prod.mk.injEq] at h
        obtain ⟨hd', hs1⟩ := h
        have hf1 : s1.found = false := by rw [hs1]; exact hf
        obtain ⟨hcells, hs0⟩ := processCellList_pure env (splitextRoot (basenameOf input_filename))
          cells 0 { g := g, tr := [], found := false } cells1 s1 hpc hf1
        constructor
        · rw [← hd', hcells]
        · rw [← hs1, hs0]

/-- Witness for C4 (amended): the concrete matchless run on `docPlain`
returns its normalization with the run state untouched. -/
theorem c4_no_refs_is_normalization_witness :
    audio_data2url_loaded envT "nb.ipynb" docPlain gRepo =
      .ok (docPlainNorm, { g := gRepo, tr := [], found := false }) ∧
    docPlainNorm = normalizeDoc docPlain :=
  ⟨by rfl,
   (c4_no_refs_is_normalization envT "nb.ipynb" docPlain docPlainNorm gRepo
      { g := gRepo, tr := [], found := false } (by rfl) (by rfl)).1⟩
